import Mathlib

/-!
Verification of `facebook_ads_mcp_complete.py` (Facebook Ads Library MCP server).

Shallow embedding: Python dicts become association lists of `String × JSON`
(Python 3.7+ dicts preserve insertion order; assignment to an existing key
keeps its position, a new key is appended).  The HTTP transport
(`requests.get` + `response.json()`) is abstracted as an
`Except String Dict` argument: `.error e` is a raised
`requests.exceptions.RequestException` with message `e` (what `str(e)`
yields), `.ok j` is the decoded JSON body.  The modelled domain takes the
decoded body to be a JSON object, and ASCII text for the analyzers
(Python's `str.lower`, `\w`, `\d`, `str.split()` are Unicode-aware; every
vocabulary in the source is ASCII).
-/

set_option linter.unusedVariables false

/-- JSON values, the payloads moved between the tools and the remote API. -/
inductive JSON where
  | null
  | bool (b : Bool)
  | num (n : Int)
  | str (s : String)
  | arr (elems : List JSON)
  | obj (entries : List (String × JSON))

/-- A Python dict with string keys, in insertion order. -/
abbrev Dict := List (String × JSON)

/-- `d.get(k)` : first binding of `k` (keys are unique in a Python dict). -/
def dget (d : Dict) (k : String) : Option JSON :=
  (d.find? (fun p => p.1 == k)).map (fun p => p.2)

/-- `d.get(k, v)` with a default. -/
def dgetD (d : Dict) (k : String) (v : JSON) : JSON :=
  (dget d k).getD v

/-- `d[k] = v` : overwrite in place if the key exists, else append. -/
def dset : Dict → String → JSON → Dict
  | [], k, v => [(k, v)]
  | (k₀, v₀) :: rest, k, v =>
      if k₀ = k then (k₀, v) :: rest else (k₀, v₀) :: dset rest k v

theorem dget_cons_ne {k₀ k : String} (h : (k₀ == k) = false) (v₀ : JSON) (d : Dict) :
    dget ((k₀, v₀) :: d) k = dget d k := by
  simp [dget, List.find?, h]

theorem dget_cons_eq {k₀ k : String} (h : (k₀ == k) = true) (v₀ : JSON) (d : Dict) :
    dget ((k₀, v₀) :: d) k = some v₀ := by
  simp [dget, List.find?, h]

theorem dget_dset_self (d : Dict) (k : String) (v : JSON) :
    dget (dset d k v) k = some v := by
  induction d with
  | nil => simp [dset, dget, List.find?]
  | cons p rest ih =>
      by_cases h : p.1 = k
      · simp [dset, h, dget, List.find?]
      · have hb : (p.1 == k) = false := beq_false_of_ne h
        simp only [dset]
        rw [if_neg h]
        rw [dget_cons_ne hb]
        exact ih

/-! ## Ads Library Client (`FacebookAdsLibraryAPI`) -/

/-- `self.base_url` set in `FacebookAdsLibraryAPI.__init__`. -/
def base_url : String := "https://graph.facebook.com/v19.0/ads_archive"

/-- The fixed `fields` list of `search_facebook_ads`. -/
def searchFieldsValue : String :=
  "id,ad_creation_time,ad_creative_bodies,ad_creative_link_captions,ad_creative_link_descriptions,ad_creative_link_titles,ad_snapshot_url,currency,demographic_distribution,delivery_by_region,impressions,page_id,page_name,publisher_platforms,spend"

/-- Outcome of the HTTP transport for one GET: a raised
`requests.exceptions.RequestException` rendered by `str(e)`, or the decoded
JSON object of a 2xx response (`raise_for_status` folds non-2xx statuses into
the exception case). -/
abbrev Transport := Except String Dict

/-- `FacebookAdsLibraryAPI._make_request`.
`params['access_token'] = self.access_token` mutates the caller's dict before
the `try`, so the pair returned here carries both the mutated params and the
result dict (the decoded body, or `{"error": str(e), "success": False}`). -/
def make_request (access_token : String) (params : Dict) (resp : Transport) :
    Dict × Dict :=
  let params' := dset params "access_token" (.str access_token)
  match resp with
  | .ok j => (params', j)
  | .error e => (params', [("error", .str e), ("success", .bool false)])

/-- The keyword arguments of the `requests.get(self.base_url, params=params)`
call in `_make_request`: no `timeout=` keyword is passed, hence `none`. -/
structure HttpGet where
  url : String
  params : Dict
  timeout : Option Nat

/-- The GET call issued by `_make_request` for given params. -/
def make_request_call (access_token : String) (params : Dict) : HttpGet :=
  { url := base_url
    params := dset params "access_token" (.str access_token)
    timeout := none }

/-- Python's `result.get("success") is False`: true exactly when the key is
bound to the boolean `False`. -/
def isSuccessFalse (d : Dict) : Bool :=
  match dget d "success" with
  | some (.bool false) => true
  | _ => false

/-! ## `search_facebook_ads` -/

/-- The `params` dict built by `search_facebook_ads` (lines 98-107); note that
`date_range` is accepted by the tool but never written into the dict. -/
def searchParams (brand_name country ad_type : String) (date_range limit : Int) :
    Dict :=
  let params : Dict :=
    [("search_terms", .str brand_name),
     ("ad_reached_countries", .arr [.str country]),
     ("fields", .str searchFieldsValue),
     ("limit", .num limit),
     ("ad_active_status", .str "ALL")]
  if ad_type ≠ "ALL" then dset params "ad_type" (.str ad_type) else params

/-- `len(result.get("data", []))`; `len` is modelled for the list-valued
`data` the remote API returns (the claims' domain). -/
def dataLen (result : Dict) : Int :=
  match dgetD result "data" (.arr []) with
  | .arr xs => (xs.length : Int)
  | _ => 0

/-- The `search_facebook_ads` tool, transport outcome abstracted as `resp`. -/
def search_facebook_ads (access_token brand_name country ad_type : String)
    (date_range limit : Int) (resp : Transport) : Dict :=
  let pr := make_request access_token
    (searchParams brand_name country ad_type date_range limit) resp
  let result := pr.2
  if isSuccessFalse result then result
  else
    [("brand", .str brand_name),
     ("total_ads", .num (dataLen result)),
     ("ads", dgetD result "data" (.arr [])),
     ("search_params", .obj pr.1),
     ("success", .bool true)]

/-! ## `discover_competitor_brands` -/

/-- The `params` dict built by `discover_competitor_brands` (lines 132-138). -/
def discoverParams (industry_keywords region : String) (limit : Int) : Dict :=
  [("search_terms", .str industry_keywords),
   ("ad_reached_countries", .arr [.str region]),
   ("fields", .str "page_name,page_id,ad_creation_time"),
   ("limit", .num (limit * 3)),
   ("ad_active_status", .str "ACTIVE")]

/-- `ad.get("page_name", "")` for one ad object of the `data` list (string
values, the remote API's shape). -/
def adPageName (ad : JSON) : String :=
  match ad with
  | .obj kvs =>
      match dget kvs "page_name" with
      | some (.str s) => s
      | _ => ""
  | _ => ""

/-- The `data` list the loop of `discover_competitor_brands` iterates. -/
def dataList (result : Dict) : List JSON :=
  match dgetD result "data" (.arr []) with
  | .arr xs => xs
  | _ => []

/-- `brand_counts[page_name] = brand_counts.get(page_name, 0) + 1` on a dict
kept as an assoc list: updating keeps the key's position, a new key is
appended (Python dict insertion order). -/
def bump : List (String × Nat) → String → List (String × Nat)
  | [], n => [(n, 1)]
  | (k, c) :: rest, n =>
      if k = n then (k, c + 1) :: rest else (k, c) :: bump rest n

/-- The `for ad in data` counting loop, skipping falsy (empty) page names. -/
def brandCountsFrom (acc : List (String × Nat)) : List String → List (String × Nat)
  | [] => acc
  | n :: rest => brandCountsFrom (if n = "" then acc else bump acc n) rest

/-- `brand_counts` at the end of the loop. -/
def brandCounts (names : List String) : List (String × Nat) :=
  brandCountsFrom [] names

/-- `sorted(..., key=lambda x: x[1], reverse=True)`'s ordering on
`(brand, count)` pairs: descending count. -/
def countGE (a b : String × Nat) : Prop := b.2 ≤ a.2

instance : DecidableRel countGE := fun a b => inferInstanceAs (Decidable (b.2 ≤ a.2))

instance : IsTotal (String × Nat) countGE := ⟨fun a b => Nat.le_total b.2 a.2⟩

instance : IsTrans (String × Nat) countGE := ⟨fun _ _ _ h₁ h₂ => Nat.le_trans h₂ h₁⟩

/-- `qualified_brands`: the brands whose count reaches `min_ads`. -/
def qualifiedBrands (names : List String) (min_ads : Nat) : List (String × Nat) :=
  (brandCounts names).filter (fun p => min_ads ≤ p.2)

/-- `sorted_brands`: Python's `sorted` is a stable sort, which insertion sort
realises; with `reverse=True` and key `x[1]` equal-count pairs keep their
dict (first-appearance) order. -/
def sortedBrands (names : List String) (min_ads : Nat) : List (String × Nat) :=
  List.insertionSort countGE (qualifiedBrands names min_ads)

/-- `sorted_brands[:limit]`, the `discovered_brands` entry of the result. -/
def discoveredBrands (names : List String) (min_ads limit : Nat) :
    List (String × Nat) :=
  (sortedBrands names min_ads).take limit

/-- The `discover_competitor_brands` tool. -/
def discover_competitor_brands (access_token industry_keywords region : String)
    (min_ads limit : Nat) (resp : Transport) : Dict :=
  let pr := make_request access_token
    (discoverParams industry_keywords region (limit : Int)) resp
  let result := pr.2
  if isSuccessFalse result then result
  else
    let names := (dataList result).map adPageName
    [("industry", .str industry_keywords),
     ("region", .str region),
     ("discovered_brands",
       .arr ((discoveredBrands names min_ads limit).map
         (fun p => .arr [.str p.1, .num (p.2 : Int)]))),
     ("total_qualified_brands", .num ((qualifiedBrands names min_ads).length : Int)),
     ("success", .bool true)]

/-! ## `_extract_ad_id_from_url` -/

/-- `re.search(r'id=(\d+)', url)`: scan left to right for the first position
where the literal `id=` is followed by at least one digit; the capture group
is the maximal digit run there.  `\d` is ASCII digits on the modelled inputs. -/
def scanId : List Char → Option (List Char)
  | [] => none
  | c :: rest =>
      match c, rest with
      | 'i', 'd' :: '=' :: d :: ds =>
          if d.isDigit then some ((d :: ds).takeWhile Char.isDigit)
          else scanId rest
      | _, _ => scanId rest

/-- `FacebookAdsLibraryAPI._extract_ad_id_from_url`: `match.group(1)` when the
pattern matches, Python `None` otherwise. -/
def extract_ad_id_from_url (snapshot_url : String) : Option String :=
  (scanId snapshot_url.data).map (fun l => String.mk l)

/-- Split a char list at every occurrence of `sep` (occurrences dropped). -/
def splitOnChar (sep : Char) : List Char → List (List Char)
  | [] => [[]]
  | c :: rest =>
      let r := splitOnChar sep rest
      if c = sep then [] :: r
      else
        match r with
        | [] => [[c]]
        | h :: t => (c :: h) :: t

/-- Modelled from the spec: "extract the numeric `id` query parameter".  The
URL's query string is what follows the first `?`; it is a `&`-separated list
of `key=value` pairs, and the `id` parameter's value is numeric when it is a
non-empty digit string.  This is the claim-side reading of "the `id` query
parameter", to be compared with the source's substring scan. -/
def idQueryParam (url : String) : Option String :=
  match splitOnChar '?' url.data with
  | [] => none
  | _ :: rest =>
      let query := List.intercalate ['?'] rest
      (splitOnChar '&' query).findSome? (fun pr =>
        match splitOnChar '=' pr with
        | k :: v :: vs =>
            let value := List.intercalate ['='] (v :: vs)
            if k = "id".data ∧ value ≠ [] ∧ value.all Char.isDigit then
              some (String.mk value)
            else none
        | _ => none)

/-! ## Text Analyzer -/

/-- `\w` of the regexes, on the ASCII domain of the fixed vocabularies. -/
def isWordChar (c : Char) : Bool := c.isAlphanum || c == '_'

/-- The `\b` after a matched phrase (every phrase of the source ends in a word
character): end of string or a non-word character. -/
def boundaryAfter : List Char → Bool
  | [] => true
  | c :: _ => !isWordChar c

/-- The alternation `(?:p₁|p₂|…)\b` tried at one position: alternatives in
written order, each required to be followed by a word boundary (the regex
engine backtracks into later alternatives when the `\b` fails). -/
def tryPhrases (phrases : List (List Char)) (s : List Char) : Option (List Char) :=
  phrases.find? (fun p => p.isPrefixOf s && boundaryAfter (s.drop p.length))

/-- `re.findall(r'\b(?:p₁|…|pₖ)\b', text)`: left-to-right, non-overlapping;
`prev` is the character before the current position (for the leading `\b`).
Fuel is the remaining length; each step consumes at least one character since
every phrase of the source is non-empty. -/
def findallAux (phrases : List (List Char)) :
    Nat → Option Char → List Char → List (List Char)
  | 0, _, _ => []
  | _ + 1, _, [] => []
  | fuel + 1, prev, c :: rest =>
      let lb := match prev with | none => true | some p => !isWordChar p
      if lb then
        match tryPhrases phrases (c :: rest) with
        | some p =>
            p :: findallAux phrases fuel (some (p.getLastD c)) ((c :: rest).drop p.length)
        | none => findallAux phrases fuel (some c) rest
      else findallAux phrases fuel (some c) rest

/-- `re.findall` of one word-bounded alternation over a text. -/
def findallWords (phrases : List String) (text : String) : List String :=
  (findallAux (phrases.map (fun p => p.data)) text.data.length none text.data).map
    (fun l => String.mk l)

/-- `text.lower()` on the ASCII domain. -/
def lowerStr (s : String) : String := String.mk (s.data.map Char.toLower)

/-- The sentiment vocabulary of `text_analysis` (line 192). -/
def sentimentKeywords : List String :=
  ["amazing", "best", "free", "save", "new", "limited", "exclusive", "now"]

/-- First CTA pattern's phrases (line 199). -/
def ctaPhrases1 : List String :=
  ["shop now", "buy now", "learn more", "sign up", "download", "get started",
   "try free", "claim offer"]

/-- Second CTA pattern's phrases (line 200). -/
def ctaPhrases2 : List String :=
  ["click here", "tap here", "swipe up", "see more", "order now", "book now"]

/-- The urgency vocabulary of `cta_analysis` (line 211). -/
def urgencyWords : List String :=
  ["now", "today", "limited", "hurry", "urgent", "expires", "deadline"]

/-- The `for pattern in cta_patterns: detected_ctas.extend(findall(...))` loop
over `text_content.lower()`. -/
def detectedCtas (text : String) : List String :=
  findallWords ctaPhrases1 (lowerStr text) ++ findallWords ctaPhrases2 (lowerStr text)

/-- Split a char list at every char satisfying `p` (splitters dropped). -/
def splitOnP (p : Char → Bool) : List Char → List (List Char)
  | [] => [[]]
  | c :: rest =>
      let r := splitOnP p rest
      if p c then [] :: r
      else
        match r with
        | [] => [[c]]
        | h :: t => (c :: h) :: t

/-- `len(text_content.split())`: whitespace-run split, empties dropped. -/
def wordCount (s : String) : Nat :=
  ((splitOnP Char.isWhitespace s.data).filter (fun w => w ≠ [])).length

/-- The `text_analysis` sub-dict (lines 189-194). -/
def textAnalysis (text : String) : Dict :=
  [("word_count", .num (wordCount text : Int)),
   ("character_count", .num (text.length : Int)),
   ("sentiment_keywords",
     .arr ((findallWords sentimentKeywords (lowerStr text)).map (fun w => .str w))),
   ("full_text", .str text)]

/-- The `cta_analysis` sub-dict (lines 208-212). -/
def ctaAnalysis (text : String) : Dict :=
  [("detected_ctas", .arr ((detectedCtas text).map (fun w => .str w))),
   ("cta_count", .num ((detectedCtas text).length : Int)),
   ("urgency_words",
     .arr ((findallWords urgencyWords (lowerStr text)).map (fun w => .str w)))]

/-! ## Creative Fetcher and `analyze_ad_creative_elements` -/

/-- What a successful `AsyncWebCrawler.arun` yields. -/
structure CrawlResult where
  cleaned_html : String
  extracted_content : String

/-- `FacebookAdsLibraryAPI._analyze_ad_creative`: the crawl outcome is
abstracted as `crawl` (`.error e` is any exception caught by the `except`,
rendered by `str(e)`). -/
def analyze_ad_creative (snapshot_url : String) (crawl : Except String CrawlResult) :
    Dict :=
  match crawl with
  | .ok r =>
      [("text_content", .str r.cleaned_html),
       ("extracted_text", .str r.extracted_content),
       ("success", .bool true)]
  | .error e => [("error", .str e), ("success", .bool false)]

/-- `creative_analysis.get("extracted_text", "")` (a string on the modelled
success path). -/
def getStr (d : Dict) (k : String) : String :=
  match dget d k with
  | some (.str s) => s
  | _ => ""

/-- Python truthiness of `creative_analysis.get("success")`, which is a bool
on both branches of `_analyze_ad_creative`. -/
def isSuccessTrue (d : Dict) : Bool :=
  match dget d "success" with
  | some (.bool b) => b
  | _ => false

/-- The `analyze_ad_creative_elements` tool.  `analyze_images` is accepted but
never read by the body.  The `analysis` sub-dict gains `text_analysis` then
`cta_analysis` in that insertion order; `success: True` is set last. -/
def analyze_ad_creative_elements (ad_snapshot_url : String)
    (extract_text analyze_images detect_cta : Bool)
    (crawl : Except String CrawlResult) : Dict :=
  let creative_analysis := analyze_ad_creative ad_snapshot_url crawl
  if !isSuccessTrue creative_analysis then creative_analysis
  else
    let ad_id : JSON :=
      match extract_ad_id_from_url ad_snapshot_url with
      | some s => .str s
      | none => .null
    let text_content := getStr creative_analysis "extracted_text"
    let analysis : Dict :=
      (if extract_text then [("text_analysis", .obj (textAnalysis text_content))]
       else []) ++
      (if detect_cta then [("cta_analysis", .obj (ctaAnalysis text_content))]
       else [])
    [("ad_url", .str ad_snapshot_url),
     ("ad_id", ad_id),
     ("analysis", .obj analysis),
     ("success", .bool true)]

/-! ## Helper lemmas -/

theorem isSuccessFalse_iff (d : Dict) :
    isSuccessFalse d = true ↔ dget d "success" = some (.bool false) := by
  constructor
  · intro h
    unfold isSuccessFalse at h
    split at h
    · assumption
    · exact absurd h (by simp)
  · intro h
    simp [isSuccessFalse, h]

theorem isSuccessFalse_errDict (e : String) :
    isSuccessFalse [("error", .str e), ("success", .bool false)] = true := by
  apply (isSuccessFalse_iff _).mpr
  rw [dget_cons_ne (by decide), dget_cons_eq (by decide)]

theorem isSuccessTrue_errDict (e : String) :
    isSuccessTrue [("error", .str e), ("success", .bool false)] = false := by
  unfold isSuccessTrue
  rw [dget_cons_ne (by decide), dget_cons_eq (by decide)]

theorem isSuccessTrue_okDict (r : CrawlResult) :
    isSuccessTrue (analyze_ad_creative url (.ok r)) = true := by
  unfold isSuccessTrue analyze_ad_creative
  rw [dget_cons_ne (by decide), dget_cons_ne (by decide), dget_cons_eq (by decide)]

/-- C1: every public tool (`search_facebook_ads`, `discover_competitor_brands`,
`analyze_ad_creative_elements`) returns, on every execution path — remote
success, remote error (the response carries `success: False`), and transport
or fetch failure — a mapping binding the key `success` to a boolean. -/
theorem success_key_always_bool :
    (∀ tok brand country adType dr lim resp, ∃ b : Bool,
        dget (search_facebook_ads tok brand country adType dr lim resp) "success"
          = some (.bool b)) ∧
    (∀ tok kw region min_ads lim resp, ∃ b : Bool,
        dget (discover_competitor_brands tok kw region min_ads lim resp) "success"
          = some (.bool b)) ∧
    (∀ url et ai dc crawl, ∃ b : Bool,
        dget (analyze_ad_creative_elements url et ai dc crawl) "success"
          = some (.bool b)) := by
  refine ⟨?_, ?_, ?_⟩
  · intro tok brand country adType dr lim resp
    cases resp with
    | error e =>
        refine ⟨false, ?_⟩
        unfold search_facebook_ads make_request
        simp only [isSuccessFalse_errDict e, if_true]
        rw [dget_cons_ne (by decide), dget_cons_eq (by decide)]
    | ok j =>
        unfold search_facebook_ads make_request
        by_cases h : isSuccessFalse j = true
        · refine ⟨false, ?_⟩
          simp only [h, if_true]
          exact (isSuccessFalse_iff j).mp h
        · refine ⟨true, ?_⟩
          simp only [eq_false_of_ne_true h, if_false, Bool.false_eq_true]
          rw [dget_cons_ne (by decide), dget_cons_ne (by decide),
            dget_cons_ne (by decide), dget_cons_ne (by decide),
            dget_cons_eq (by decide)]
  · intro tok kw region min_ads lim resp
    cases resp with
    | error e =>
        refine ⟨false, ?_⟩
        unfold discover_competitor_brands make_request
        simp only [isSuccessFalse_errDict e, if_true]
        rw [dget_cons_ne (by decide), dget_cons_eq (by decide)]
    | ok j =>
        unfold discover_competitor_brands make_request
        by_cases h : isSuccessFalse j = true
        · refine ⟨false, ?_⟩
          simp only [h, if_true]
          exact (isSuccessFalse_iff j).mp h
        · refine ⟨true, ?_⟩
          simp only [eq_false_of_ne_true h, if_false, Bool.false_eq_true]
          rw [dget_cons_ne (by decide), dget_cons_ne (by decide),
            dget_cons_ne (by decide), dget_cons_ne (by decide),
            dget_cons_eq (by decide)]
  · intro url et ai dc crawl
    cases crawl with
    | error e =>
        refine ⟨false, ?_⟩
        unfold analyze_ad_creative_elements
        simp only [analyze_ad_creative, isSuccessTrue_errDict e, Bool.not_false, if_true]
        rw [dget_cons_ne (by decide), dget_cons_eq (by decide)]
    | ok r =>
        refine ⟨true, ?_⟩
        unfold analyze_ad_creative_elements
        simp only [isSuccessTrue_okDict r, Bool.not_true, if_false, Bool.false_eq_true]
        rw [dget_cons_ne (by decide), dget_cons_ne (by decide),
          dget_cons_ne (by decide), dget_cons_eq (by decide)]

/-- C2: when the transport fails with message `e` (timeout, DNS failure,
non-2xx status, connection refused), both the search tool and the
creative-fetch tool return exactly `{"error": e, "success": False}`; the error
string is non-empty whenever the exception's message is, and the embedding is
a total function, so no exception crosses the tool boundary. -/
theorem transport_failure_error_record (e : String) (hne : e ≠ "")
    (tok brand country adType : String) (dr lim : Int)
    (url : String) (et ai dc : Bool) :
    search_facebook_ads tok brand country adType dr lim (.error e)
      = [("error", .str e), ("success", .bool false)] ∧
    analyze_ad_creative_elements url et ai dc (.error e)
      = [("error", .str e), ("success", .bool false)] ∧
    ∃ msg : String, msg ≠ "" ∧
      dget (search_facebook_ads tok brand country adType dr lim (.error e)) "error"
        = some (.str msg) ∧
      dget (analyze_ad_creative_elements url et ai dc (.error e)) "error"
        = some (.str msg) := by
  have hs : search_facebook_ads tok brand country adType dr lim (.error e)
      = [("error", .str e), ("success", .bool false)] := by
    unfold search_facebook_ads make_request
    simp only [isSuccessFalse_errDict e, if_true]
  have ha : analyze_ad_creative_elements url et ai dc (.error e)
      = [("error", .str e), ("success", .bool false)] := by
    unfold analyze_ad_creative_elements
    simp only [analyze_ad_creative, isSuccessTrue_errDict e, Bool.not_false, if_true]
  refine ⟨hs, ha, e, hne, ?_, ?_⟩
  · rw [hs, dget_cons_eq (by decide)]
  · rw [ha, dget_cons_eq (by decide)]

/-- C2 witness: a concrete connection-refused message. -/
theorem transport_failure_error_record_witness :
    search_facebook_ads "TOKEN" "nike" "US" "ALL" 30 50 (.error "Connection refused")
      = [("error", .str "Connection refused"), ("success", .bool false)] :=
  (transport_failure_error_record "Connection refused" (by decide)
    "TOKEN" "nike" "US" "ALL" 30 50 "https://x" true true true).1

/-- C4: for a well-formed remote response `j` (one that does not bind
`success` to `False`) whose `data` field is the list `l`, the search result
binds `total_ads` to `l`'s length and `ads` to `l` itself, unmodified. -/
theorem search_data_passthrough (tok brand country adType : String)
    (dr lim : Int) (j : Dict) (l : List JSON)
    (hok : isSuccessFalse j = false)
    (hdata : dget j "data" = some (.arr l)) :
    dget (search_facebook_ads tok brand country adType dr lim (.ok j)) "total_ads"
      = some (.num (l.length : Int)) ∧
    dget (search_facebook_ads tok brand country adType dr lim (.ok j)) "ads"
      = some (.arr l) := by
  have hd : dgetD j "data" (.arr []) = .arr l := by
    simp [dgetD, hdata]
  have hlen : dataLen j = (l.length : Int) := by
    simp [dataLen, hd]
  unfold search_facebook_ads make_request
  simp only [hok, Bool.false_eq_true, if_false]
  constructor
  · rw [dget_cons_ne (by decide), dget_cons_eq (by decide), hlen]
  · rw [dget_cons_ne (by decide), dget_cons_ne (by decide),
      dget_cons_eq (by decide), hd]

/-- C4 witness: a two-ad response. -/
theorem search_data_passthrough_witness :
    dget (search_facebook_ads "TOKEN" "nike" "US" "ALL" 30 50
        (.ok [("data", .arr [.str "ad1", .str "ad2"])])) "total_ads"
      = some (.num 2) ∧
    dget (search_facebook_ads "TOKEN" "nike" "US" "ALL" 30 50
        (.ok [("data", .arr [.str "ad1", .str "ad2"])])) "ads"
      = some (.arr [.str "ad1", .str "ad2"]) :=
  search_data_passthrough "TOKEN" "nike" "US" "ALL" 30 50
    [("data", .arr [.str "ad1", .str "ad2"])] [.str "ad1", .str "ad2"]
    rfl rfl

/-- C9: `_make_request` writes the secret token into the caller's `params`
dict before the GET, and every successful `search_facebook_ads` result embeds
that same dict under `search_params`; hence the token is delivered to the
caller with every successful search. -/
theorem search_result_leaks_access_token (tok brand country adType : String)
    (dr lim : Int) (j : Dict) (hok : isSuccessFalse j = false) :
    ∃ p : Dict,
      dget (search_facebook_ads tok brand country adType dr lim (.ok j)) "search_params"
        = some (.obj p) ∧
      dget p "access_token" = some (.str tok) := by
  refine ⟨dset (searchParams brand country adType dr lim) "access_token" (.str tok),
    ?_, dget_dset_self _ _ _⟩
  unfold search_facebook_ads make_request
  simp only [hok, Bool.false_eq_true, if_false]
  rw [dget_cons_ne (by decide), dget_cons_ne (by decide),
    dget_cons_ne (by decide), dget_cons_eq (by decide)]

/-- C9 witness: the token shows up in a concrete successful result. -/
theorem search_result_leaks_access_token_witness :
    ∃ p : Dict,
      dget (search_facebook_ads "SECRET" "nike" "US" "ALL" 30 50
          (.ok [("data", .arr [])])) "search_params"
        = some (.obj p) ∧
      dget p "access_token" = some (.str "SECRET") :=
  search_result_leaks_access_token "SECRET" "nike" "US" "ALL" 30 50
    [("data", .arr [])] rfl

/-- The spec's keyword-counting example text. -/
def ctaExample : String := "Buy now! Shop now. Limited time, buy now."

/-- C5: `cta_count` is the length of the detected list, i.e. every repeated
occurrence is counted; on the spec's example text the case-insensitive,
word-boundary matching detects "buy now" twice and "shop now" once (three
matches in all), and an all-caps rendering of the text detects the same. -/
theorem cta_count_counts_repetitions :
    (∀ text : String,
        dget (ctaAnalysis text) "cta_count"
          = some (.num ((detectedCtas text).length : Int))) ∧
    (detectedCtas ctaExample).count "buy now" = 2 ∧
    (detectedCtas ctaExample).count "shop now" = 1 ∧
    (detectedCtas ctaExample).length = 3 ∧
    detectedCtas "BUY NOW! SHOP NOW. LIMITED TIME, BUY NOW." = detectedCtas ctaExample := by
  refine ⟨?_, by decide, by decide, by decide, by decide⟩
  intro text
  unfold ctaAnalysis
  rw [dget_cons_ne (by decide), dget_cons_eq (by decide)]

/-- C6 counterexample: `re.search(r'id=(\d+)', url)` matches the substring
`id=` anywhere, so for a URL whose only parameter is `paid=55` — which has no
`id` query parameter at all — extraction returns "55" instead of the absent
value the claim requires. -/
theorem extract_ad_id_not_the_query_param :
    extract_ad_id_from_url "https://e.com/ad/?paid=55" = some "55" ∧
    idQueryParam "https://e.com/ad/?paid=55" = none := by
  constructor <;> decide

/-- C6 (amended): extraction returns the maximal digit run after the first
occurrence of the substring `id=` that is followed by a digit, and an absent
value (not a crash) when no such occurrence exists; on URLs whose first such
occurrence is the `id` query parameter itself — e.g.
".../ad/?id=123456789&other=x" — this coincides with the parameter's numeric
value. -/
theorem extract_ad_id_first_substring_match :
    extract_ad_id_from_url
        "https://www.facebook.com/ads/archive/render_ad/?id=123456789&other=x"
      = some "123456789" ∧
    idQueryParam
        "https://www.facebook.com/ads/archive/render_ad/?id=123456789&other=x"
      = some "123456789" ∧
    extract_ad_id_from_url "https://example.com/ad/" = none := by
  refine ⟨by decide, by decide, by decide⟩

/-- C7: `date_range` is accepted by `search_facebook_ads` and documented as
"days to look back", but the body never writes it into `params`: two calls
differing only in `date_range` produce identical outgoing query parameters
and identical results, contradicting the claim that all five arguments are
mapped into the request. The other four arguments *are* mapped. -/
theorem date_range_never_mapped :
    (∀ tok brand country adType dr dr' lim resp,
        search_facebook_ads tok brand country adType dr lim resp
          = search_facebook_ads tok brand country adType dr' lim resp) ∧
    searchParams "nike" "US" "ALL" 30 50 = searchParams "nike" "US" "ALL" 7 50 ∧
    (∀ brand country adType dr lim,
        dget (searchParams brand country adType dr lim) "search_terms"
          = some (.str brand) ∧
        dget (searchParams brand country adType dr lim) "ad_reached_countries"
          = some (.arr [.str country]) ∧
        dget (searchParams brand country adType dr lim) "limit"
          = some (.num lim) ∧
        (adType ≠ "ALL" →
          dget (searchParams brand country adType dr lim) "ad_type"
            = some (.str adType))) := by
  refine ⟨fun tok brand country adType dr dr' lim resp => rfl, rfl, ?_⟩
  intro brand country adType dr lim
  unfold searchParams
  by_cases h : adType = "ALL"
  · simp only [h, ne_eq, not_true_eq_false, if_false]
    refine ⟨?_, ?_, ?_, fun hc => hc.elim⟩
    · rw [dget_cons_eq (by decide)]
    · rw [dget_cons_ne (by decide), dget_cons_eq (by decide)]
    · rw [dget_cons_ne (by decide), dget_cons_ne (by decide),
        dget_cons_ne (by decide), dget_cons_eq (by decide)]
  · simp only [ne_eq, h, not_false_eq_true, if_true]
    refine ⟨?_, ?_, ?_, fun _ => ?_⟩
    · unfold dset
      rw [if_neg (by decide), dget_cons_eq (by decide)]
    · unfold dset
      rw [if_neg (by decide), dget_cons_ne (by decide)]
      unfold dset
      rw [if_neg (by decide), dget_cons_eq (by decide)]
    · unfold dset
      rw [if_neg (by decide), dget_cons_ne (by decide)]
      unfold dset
      rw [if_neg (by decide), dget_cons_ne (by decide)]
      unfold dset
      rw [if_neg (by decide), dget_cons_ne (by decide)]
      unfold dset
      rw [if_neg (by decide), dget_cons_eq (by decide)]
    · exact dget_dset_self _ _ _

/-- C7 witness: the `ad_type ≠ "ALL"` hypothesis discharged concretely. -/
theorem date_range_never_mapped_witness :
    dget (searchParams "nike" "US" "POLITICAL_AND_ISSUE_ADS" 30 50) "ad_type"
      = some (.str "POLITICAL_AND_ISSUE_ADS") :=
  ((date_range_never_mapped.2.2 "nike" "US" "POLITICAL_AND_ISSUE_ADS" 30 50).2.2.2
    (by decide))

/-- C8: the `requests.get(self.base_url, params=params)` call of
`_make_request` passes no `timeout=` keyword at all, so no search request is
bounded by an explicit timeout — the GET issued for every search carries
`timeout = none`. -/
theorem search_get_passes_no_timeout :
    (∀ tok brand country adType dr lim,
        (make_request_call tok (searchParams brand country adType dr lim)).timeout
          = none) ∧
    (make_request_call "TOKEN" (searchParams "nike" "US" "ALL" 30 50)).timeout
      = none :=
  ⟨fun _ _ _ _ _ _ => rfl, rfl⟩

/-- C10: `analyze_images` is never read, so toggling it cannot change any
field of the result; on a successful fetch the `analysis` sub-dict binds
`text_analysis` exactly when `extract_text` is set, `cta_analysis` exactly
when `detect_cta` is set, and nothing else — in particular no image-analysis
entry ever exists. -/
theorem analyze_images_flag_inert (url : String) (et dc : Bool)
    (crawl : Except String CrawlResult) :
    (∀ ai ai' : Bool,
        analyze_ad_creative_elements url et ai dc crawl
          = analyze_ad_creative_elements url et ai' dc crawl) ∧
    (∀ r : CrawlResult, crawl = .ok r →
      ∃ a : Dict,
        dget (analyze_ad_creative_elements url et true dc crawl) "analysis"
          = some (.obj a) ∧
        ((dget a "text_analysis").isSome ↔ et = true) ∧
        ((dget a "cta_analysis").isSome ↔ dc = true) ∧
        (∀ k v, (k, v) ∈ a → k = "text_analysis" ∨ k = "cta_analysis")) := by
  refine ⟨fun ai ai' => rfl, ?_⟩
  rintro r rfl
  refine ⟨(if et then [("text_analysis",
      .obj (textAnalysis (getStr (analyze_ad_creative url (.ok r)) "extracted_text")))]
    else []) ++
    (if dc then [("cta_analysis",
      .obj (ctaAnalysis (getStr (analyze_ad_creative url (.ok r)) "extracted_text")))]
    else []), ?_, ?_, ?_, ?_⟩
  · unfold analyze_ad_creative_elements
    simp only [isSuccessTrue_okDict r, Bool.not_true, if_false, Bool.false_eq_true]
    rw [dget_cons_ne (by decide), dget_cons_ne (by decide), dget_cons_eq (by decide)]
  · cases et <;> cases dc <;>
      simp [dget, List.find?]
  · cases et <;> cases dc <;>
      simp [dget, List.find?]
  · intro k v hm
    cases et <;> cases dc <;> simp at hm <;> tauto

/-- C10 witness: concrete crawl success with both analysis flags set. -/
theorem analyze_images_flag_inert_witness :
    ∃ a : Dict,
      dget (analyze_ad_creative_elements "https://x/?id=1" true true true
          (.ok ⟨"<p>Buy now</p>", "Buy now"⟩)) "analysis"
        = some (.obj a) ∧
      ((dget a "text_analysis").isSome ↔ True = True) ∧
      ((dget a "cta_analysis").isSome ↔ True = True) := by
  obtain ⟨a, h₁, h₂, h₃, _⟩ :=
    (analyze_images_flag_inert "https://x/?id=1" true true
      (.ok ⟨"<p>Buy now</p>", "Buy now"⟩)).2 ⟨"<p>Buy now</p>", "Buy now"⟩ rfl
  exact ⟨a, h₁, by simp [h₂], by simp [h₃]⟩

/-! ## Counting-loop lemmas for `discover_competitor_brands` -/

/-- `brand_counts.get(n, 0)` on the assoc-list dict. -/
def lookupCount : List (String × Nat) → String → Nat
  | [], _ => 0
  | (k, c) :: rest, n => if k = n then c else lookupCount rest n

/-- Claim-side characterisation for the refinement comparison: the non-empty
page names in order of first appearance in the response. -/
def firstSeen (names : List String) : List String :=
  names.foldl (fun ks n => if n = "" ∨ n ∈ ks then ks else ks ++ [n]) []

theorem bump_keys (acc : List (String × Nat)) (n : String) :
    (bump acc n).map Prod.fst =
      if n ∈ acc.map Prod.fst then acc.map Prod.fst
      else acc.map Prod.fst ++ [n] := by
  induction acc with
  | nil => simp [bump]
  | cons p rest ih =>
      obtain ⟨k, c⟩ := p
      by_cases h : k = n
      · simp [bump, h]
      · have hnk : ¬n = k := fun hh => h hh.symm
        simp only [bump, if_neg h, List.map_cons]
        rw [ih]
        by_cases hm : n ∈ rest.map Prod.fst
        · simp [List.mem_cons, hm, hnk]
        · simp [List.mem_cons, hm, hnk]

theorem lookupCount_bump_self (acc : List (String × Nat)) (n : String) :
    lookupCount (bump acc n) n = lookupCount acc n + 1 := by
  induction acc with
  | nil => simp [bump, lookupCount]
  | cons p rest ih =>
      obtain ⟨k, c⟩ := p
      by_cases h : k = n
      · simp [bump, lookupCount, h]
      · simp [bump, lookupCount, h, ih]

theorem lookupCount_bump_ne (acc : List (String × Nat)) {m n : String} (h : m ≠ n) :
    lookupCount (bump acc n) m = lookupCount acc m := by
  have hnm : ¬n = m := fun hh => h hh.symm
  induction acc with
  | nil => simp [bump, lookupCount, hnm]
  | cons p rest ih =>
      obtain ⟨k, c⟩ := p
      simp only [bump]
      by_cases hk : k = n
      · rw [if_pos hk]
        have hkm : ¬k = m := by rw [hk]; exact hnm
        simp [lookupCount, hkm]
      · rw [if_neg hk]
        simp only [lookupCount]
        by_cases hkm : k = m
        · rw [if_pos hkm, if_pos hkm]
        · rw [if_neg hkm, if_neg hkm]
          exact ih

theorem lookupCount_eq_zero_of_not_mem {acc : List (String × Nat)} {n : String}
    (h : n ∉ acc.map Prod.fst) : lookupCount acc n = 0 := by
  induction acc with
  | nil => rfl
  | cons p rest ih =>
      simp only [List.map_cons, List.mem_cons] at h
      push_neg at h
      obtain ⟨k, c⟩ := p
      have : ¬k = n := fun hh => h.1 hh.symm
      simp [lookupCount, this, ih h.2]

theorem self_lookup_mem {acc : List (String × Nat)} {n : String}
    (h : n ∈ acc.map Prod.fst) : (n, lookupCount acc n) ∈ acc := by
  induction acc with
  | nil => simp at h
  | cons p rest ih =>
      obtain ⟨k, c⟩ := p
      by_cases hk : k = n
      · simp [lookupCount, hk]
      · have : n ∈ rest.map Prod.fst := by
          simp only [List.map_cons, List.mem_cons] at h
          exact h.resolve_left (fun hh => hk hh.symm)
        simp only [lookupCount, if_neg hk]
        exact List.mem_cons_of_mem _ (ih this)

theorem lookupCount_of_mem {acc : List (String × Nat)} {p : String × Nat}
    (hnd : (acc.map Prod.fst).Nodup) (hm : p ∈ acc) :
    lookupCount acc p.1 = p.2 := by
  induction acc with
  | nil => simp at hm
  | cons q rest ih =>
      obtain ⟨k, c⟩ := q
      simp only [List.map_cons, List.nodup_cons] at hnd
      rcases List.mem_cons.mp hm with h | h
      · subst h
        simp [lookupCount]
      · have hk : ¬k = p.1 := by
          intro hh
          exact hnd.1 (hh ▸ (List.mem_map_of_mem Prod.fst h))
        simp only [lookupCount, if_neg hk]
        exact ih hnd.2 h

theorem bump_keys_nodup {acc : List (String × Nat)} (n : String)
    (hnd : (acc.map Prod.fst).Nodup) : ((bump acc n).map Prod.fst).Nodup := by
  rw [bump_keys]
  split
  · exact hnd
  · next h => simp [List.nodup_append, hnd, h]

theorem bump_entries {acc : List (String × Nat)} {n : String} (hn : n ≠ "")
    (hall : ∀ p ∈ acc, p.1 ≠ "" ∧ 1 ≤ p.2) :
    ∀ p ∈ bump acc n, p.1 ≠ "" ∧ 1 ≤ p.2 := by
  induction acc with
  | nil =>
      intro p hp
      simp only [bump, List.mem_singleton] at hp
      subst hp
      exact ⟨hn, le_refl 1⟩
  | cons q rest ih =>
      obtain ⟨k, c⟩ := q
      intro p hp
      by_cases hk : k = n
      · simp only [bump, if_pos hk, List.mem_cons] at hp
        rcases hp with h | h
        · subst h
          exact ⟨(hall (k, c) (List.mem_cons_self _ _)).1, Nat.le_add_left 1 c⟩
        · exact hall p (List.mem_cons_of_mem _ h)
      · simp only [bump, if_neg hk, List.mem_cons] at hp
        rcases hp with h | h
        · subst h
          exact hall (k, c) (List.mem_cons_self _ _)
        · exact ih (fun q hq => hall q (List.mem_cons_of_mem _ hq)) p h

theorem brandCountsFrom_lookup (names : List String) :
    ∀ (acc : List (String × Nat)) (n : String), n ≠ "" →
      lookupCount (brandCountsFrom acc names) n = lookupCount acc n + names.count n := by
  induction names with
  | nil => intro acc n _; simp [brandCountsFrom]
  | cons m rest ih =>
      intro acc n hn
      show lookupCount (brandCountsFrom (if m = "" then acc else bump acc m) rest) n = _
      rw [ih _ n hn]
      by_cases hm : m = ""
      · have hmn : (m == n) = false := by
          apply beq_false_of_ne
          rw [hm]
          exact fun hh => hn hh.symm
        rw [if_pos hm, List.count_cons, hmn]
        simp
      · by_cases hmn : m = n
        · subst hmn
          rw [if_neg hm, lookupCount_bump_self, List.count_cons]
          simp only [beq_self_eq_true, if_true]
          omega
        · have hne : n ≠ m := fun hh => hmn hh.symm
          have hmnb : (m == n) = false := beq_false_of_ne hmn
          rw [if_neg hm, lookupCount_bump_ne _ hne, List.count_cons, hmnb]
          simp

theorem brandCountsFrom_keys (names : List String) :
    ∀ acc : List (String × Nat),
      (brandCountsFrom acc names).map Prod.fst =
        names.foldl (fun ks n => if n = "" ∨ n ∈ ks then ks else ks ++ [n])
          (acc.map Prod.fst) := by
  induction names with
  | nil => intro acc; simp [brandCountsFrom]
  | cons m rest ih =>
      intro acc
      show (brandCountsFrom (if m = "" then acc else bump acc m) rest).map Prod.fst = _
      rw [ih, List.foldl_cons]
      congr 1
      by_cases hm : m = ""
      · simp [hm]
      · simp only [if_neg hm]
        rw [bump_keys]
        by_cases hmem : m ∈ acc.map Prod.fst
        · simp [hmem, hm]
        · simp [hmem, hm]

theorem brandCountsFrom_keys_nodup (names : List String) :
    ∀ acc : List (String × Nat), (acc.map Prod.fst).Nodup →
      ((brandCountsFrom acc names).map Prod.fst).Nodup := by
  induction names with
  | nil => intro acc h; exact h
  | cons m rest ih =>
      intro acc h
      show ((brandCountsFrom (if m = "" then acc else bump acc m) rest).map Prod.fst).Nodup
      apply ih
      by_cases hm : m = ""
      · simpa [hm] using h
      · simpa [hm] using bump_keys_nodup m h

theorem brandCountsFrom_entries (names : List String) :
    ∀ acc : List (String × Nat), (∀ p ∈ acc, p.1 ≠ "" ∧ 1 ≤ p.2) →
      ∀ p ∈ brandCountsFrom acc names, p.1 ≠ "" ∧ 1 ≤ p.2 := by
  induction names with
  | nil => intro acc h; exact h
  | cons m rest ih =>
      intro acc h
      show ∀ p ∈ brandCountsFrom (if m = "" then acc else bump acc m) rest, _
      apply ih
      by_cases hm : m = ""
      · simpa [hm] using h
      · simpa [hm] using bump_entries hm h

theorem brandCounts_lookup {names : List String} {n : String} (hn : n ≠ "") :
    lookupCount (brandCounts names) n = names.count n := by
  have := brandCountsFrom_lookup names [] n hn
  simpa [brandCounts, lookupCount] using this

theorem brandCounts_keys_nodup (names : List String) :
    ((brandCounts names).map Prod.fst).Nodup :=
  brandCountsFrom_keys_nodup names [] (by simp)

theorem brandCounts_entries {names : List String} :
    ∀ p ∈ brandCounts names, p.1 ≠ "" ∧ 1 ≤ p.2 :=
  brandCountsFrom_entries names [] (by simp)

theorem brandCounts_count_of_mem {names : List String} {p : String × Nat}
    (hm : p ∈ brandCounts names) : p.2 = names.count p.1 := by
  have h1 := (brandCounts_entries p hm).1
  rw [← lookupCount_of_mem (brandCounts_keys_nodup names) hm, brandCounts_lookup h1]

theorem brandCounts_complete {names : List String} {n : String}
    (hmem : n ∈ names) (hn : n ≠ "") :
    (n, names.count n) ∈ brandCounts names := by
  have hk : n ∈ (brandCounts names).map Prod.fst := by
    by_contra h
    have h0 := lookupCount_eq_zero_of_not_mem h
    rw [brandCounts_lookup hn] at h0
    exact (List.count_eq_zero.mp h0) hmem
  have := self_lookup_mem hk
  rwa [brandCounts_lookup hn] at this

/-- The remote page names of the spec's brand-discovery example: counts
A:6, B:3, C:10, first appearances in the order A, B, C. -/
def exNames : List String :=
  ["A", "A", "B", "C", "A", "C", "B", "C", "A", "C",
   "C", "B", "A", "C", "C", "A", "C", "C", "C"]

/-- C3: `discover_competitor_brands` counts ads per page name (empty names
skipped), keeps exactly the brands reaching `min_ads`, sorts them by strictly
descending-or-equal count (Python's `sorted` is stable, realised here by
insertion sort), truncates to `limit`, keeps equal-count pairs in their
qualified-list order — which is the order of first appearance, since the
count dict's keys are exactly `firstSeen names` — and on the spec's example
returns `[(C,10), (A,6)]`. -/
theorem discover_brand_aggregation (names : List String) (min_ads limit : Nat) :
    (discoveredBrands names min_ads limit).Sorted countGE ∧
    discoveredBrands names min_ads limit = (sortedBrands names min_ads).take limit ∧
    List.Perm (sortedBrands names min_ads) (qualifiedBrands names min_ads) ∧
    (∀ p : String × Nat, p ∈ sortedBrands names min_ads →
        min_ads ≤ p.2 ∧ p.2 = names.count p.1 ∧ p.1 ≠ "") ∧
    (∀ n, n ∈ names → n ≠ "" → min_ads ≤ names.count n →
        (n, names.count n) ∈ sortedBrands names min_ads) ∧
    (∀ a b : String × Nat, a.2 = b.2 →
        List.Sublist [a, b] (qualifiedBrands names min_ads) →
        List.Sublist [a, b] (sortedBrands names min_ads)) ∧
    (brandCounts names).map Prod.fst = firstSeen names ∧
    discoveredBrands exNames 5 100 = [("C", 10), ("A", 6)] := by
  refine ⟨?_, rfl, ?_, ?_, ?_, ?_, ?_, by decide⟩
  · exact List.Pairwise.sublist (List.take_sublist _ _)
      (List.sorted_insertionSort countGE (qualifiedBrands names min_ads))
  · exact List.perm_insertionSort countGE (qualifiedBrands names min_ads)
  · intro p hp
    have hq : p ∈ qualifiedBrands names min_ads :=
      (List.mem_insertionSort countGE).mp hp
    have hf := List.mem_filter.mp hq
    have hmin : min_ads ≤ p.2 := of_decide_eq_true hf.2
    have hbc := hf.1
    exact ⟨hmin, brandCounts_count_of_mem hbc, (brandCounts_entries p hbc).1⟩
  · intro n hmem hn hcount
    apply (List.mem_insertionSort countGE).mpr
    apply List.mem_filter.mpr
    exact ⟨brandCounts_complete hmem hn, decide_eq_true hcount⟩
  · intro a b he hsub
    exact List.pair_sublist_insertionSort (le_of_eq he.symm) hsub
  · exact brandCountsFrom_keys names []

/-- C3 witness: on the example response, brand C (count 10) qualifies at
`min_ads = 5` and is in the sorted list. -/
theorem discover_brand_aggregation_witness :
    ("C", exNames.count "C") ∈ sortedBrands exNames 5 :=
  (discover_brand_aggregation exNames 5 100).2.2.2.2.1 "C"
    (by decide) (by decide) (by decide)
